import Mathlib

/-!
Verification of the services.org.ai documentation generator.

Strings are modelled as lists of characters (`Str`), so that the JavaScript
string operations of the source (regex replaces, `toLowerCase`, template
concatenation, `trim`) become executable Lean functions that can be reasoned
about characterwise.  JavaScript `toLowerCase`/`toUpperCase` are modelled on
the ASCII range, which is the only range the generator's data and the
relevant pipelines exercise (the kebab-case pipeline filters to ASCII before
lowercasing).  Fallible JavaScript code (property access on `undefined`)
is modelled with `Except Unit`.
-/

abbrev Str := List Char

/-- Decimal digit, ASCII. -/
def isDigitB (c : Char) : Bool := 48 ≤ c.toNat && c.toNat ≤ 57

/-- Uppercase ASCII letter. -/
def isUpperAlphaB (c : Char) : Bool := 65 ≤ c.toNat && c.toNat ≤ 90

/-- Lowercase ASCII letter. -/
def isLowerAlphaB (c : Char) : Bool := 97 ≤ c.toNat && c.toNat ≤ 122

/-- ASCII alphanumeric, the class `[a-zA-Z0-9]` of the source's regexes. -/
def isAlnumB (c : Char) : Bool := isDigitB c || isUpperAlphaB c || isLowerAlphaB c

/-- The JavaScript whitespace class `\s`. -/
def jsWsB (c : Char) : Bool :=
  c.toNat = 9 || c.toNat = 10 || c.toNat = 11 || c.toNat = 12 || c.toNat = 13 ||
  c.toNat = 32 || c.toNat = 160 || c.toNat = 0x1680 ||
  (0x2000 ≤ c.toNat && c.toNat ≤ 0x200A) ||
  c.toNat = 0x2028 || c.toNat = 0x2029 || c.toNat = 0x202F ||
  c.toNat = 0x205F || c.toNat = 0x3000 || c.toNat = 0xFEFF

/-- JavaScript `toLowerCase`, on the ASCII range. -/
def lowerChar (c : Char) : Char :=
  if isUpperAlphaB c then Char.ofNat (c.toNat + 32) else c

/-- JavaScript `toUpperCase`, on the ASCII range. -/
def upperChar (c : Char) : Char :=
  if isLowerAlphaB c then Char.ofNat (c.toNat - 32) else c

theorem toNat_ofNat_of_lt (n : Nat) (h : n < 0xD800) : (Char.ofNat n).toNat = n := by
  have hv : n.isValidChar := Or.inl h
  simp [Char.ofNat, hv, Char.ofNatAux, Char.toNat, UInt32.toNat, BitVec.toNat_ofNatLt]

theorem lowerChar_toNat_of_upper (c : Char) (h : isUpperAlphaB c = true) :
    (lowerChar c).toNat = c.toNat + 32 := by
  simp only [isUpperAlphaB, Bool.and_eq_true, decide_eq_true_eq] at h
  have : c.toNat + 32 < 0xD800 := by omega
  simp [lowerChar, isUpperAlphaB, h.1, h.2, toNat_ofNat_of_lt _ this]

theorem lowerChar_eq_of_not_upper (c : Char) (h : isUpperAlphaB c = false) :
    lowerChar c = c := by
  simp [lowerChar, h]

/- ## Classification registry: src/scripts/naics-parser.ts -/

structure NAICSSector where
  code : Str
  name : Str
  description : Option Str
deriving DecidableEq

structure NAICSIndustry where
  code : Str
  title : Str
  description : Option Str
  sector : NAICSSector
deriving DecidableEq

structure NAICSClassification where
  code : Str
  title : Str
  sector : Str
  sectorName : Str
  subsector : Option Str
  industryGroup : Option Str
  industryGroupName : Option Str
deriving DecidableEq

def sector54 : NAICSSector :=
  { code := "54".toList
    name := "Professional, Scientific, and Technical Services".toList
    description := some ("Industries comprising establishments that specialize in performing professional, scientific, and technical activities for others".toList) }

def sector72 : NAICSSector :=
  { code := "72".toList
    name := "Accommodation and Food Services".toList
    description := some ("Industries providing customers with lodging and/or preparing meals, snacks, and beverages for immediate consumption".toList) }

def sector62 : NAICSSector :=
  { code := "62".toList
    name := "Health Care and Social Assistance".toList
    description := some ("Industries providing health care and social assistance for individuals".toList) }

def sector61 : NAICSSector :=
  { code := "61".toList
    name := "Educational Services".toList
    description := some ("Industries providing instruction and training in a wide variety of subjects".toList) }

/-- The hardcoded sample table `NAICS_DATA` of naics-parser.ts. -/
def NAICS_DATA : List (Str × NAICSIndustry) :=
  [ ("541511".toList,
     { code := "541511".toList
       title := "Custom Computer Programming Services".toList
       description := some ("Writing, modifying, testing, and supporting software to meet the needs of a particular customer".toList)
       sector := sector54 }),
    ("541512".toList,
     { code := "541512".toList
       title := "Computer Systems Design Services".toList
       description := some ("Planning and designing computer systems that integrate computer hardware, software, and communication technologies".toList)
       sector := sector54 }),
    ("541513".toList,
     { code := "541513".toList
       title := "Computer Facilities Management Services".toList
       description := some ("Providing on-site management and operation of clients computer systems and/or data processing facilities".toList)
       sector := sector54 }),
    ("722511".toList,
     { code := "722511".toList
       title := "Full-Service Restaurants".toList
       description := some ("Providing food services to patrons who order and are served while seated and pay after eating".toList)
       sector := sector72 }),
    ("722513".toList,
     { code := "722513".toList
       title := "Limited-Service Restaurants".toList
       description := some ("Providing food services where patrons generally order or select items and pay before eating".toList)
       sector := sector72 }),
    ("541110".toList,
     { code := "541110".toList
       title := "Offices of Lawyers".toList
       description := some ("Legal advice and representation in civil and criminal legal matters".toList)
       sector := sector54 }),
    ("541211".toList,
     { code := "541211".toList
       title := "Offices of Certified Public Accountants".toList
       description := some ("Providing accounting, auditing, and bookkeeping services".toList)
       sector := sector54 }),
    ("621111".toList,
     { code := "621111".toList
       title := "Offices of Physicians (except Mental Health Specialists)".toList
       description := some ("Providing medical care services by licensed physicians".toList)
       sector := sector62 }),
    ("621210".toList,
     { code := "621210".toList
       title := "Offices of Dentists".toList
       description := some ("Providing dental care services by licensed dentists".toList)
       sector := sector62 }),
    ("611110".toList,
     { code := "611110".toList
       title := "Elementary and Secondary Schools".toList
       description := some ("Providing academic courses and associated course work that comprise a basic preparatory education".toList)
       sector := sector61 }) ]

/-- `NAICSParser.getIndustry`: exact key lookup in the table. -/
def getIndustry (code : Str) : Option NAICSIndustry :=
  (NAICS_DATA.find? (fun p => p.1 == code)).map (fun p => p.2)

/-- The `industryGroupNames` table of `NAICSParser.getIndustryGroupName`. -/
def industryGroupNames : List (Str × Str) :=
  [ ("5415".toList, "Computer Systems Design and Related Services".toList),
    ("7225".toList, "Restaurants and Other Eating Places".toList),
    ("5411".toList, "Legal Services".toList),
    ("5412".toList, "Accounting, Tax Preparation, Bookkeeping, and Payroll Services".toList),
    ("6211".toList, "Offices of Physicians".toList),
    ("6212".toList, "Offices of Dentists".toList),
    ("6111".toList, "Elementary and Secondary Schools".toList) ]

/-- `NAICSParser.getIndustryGroupName`: lookup that may miss. -/
def getIndustryGroupName : Option Str → Option Str
  | none => none
  | some ig => (industryGroupNames.find? (fun p => p.1 == ig)).map (fun p => p.2)

/-- `NAICSParser.getClassification`: prefix slicing of the code plus lookups.
`substring(0, k)` on a shorter string returns the whole string, hence `take`. -/
def getClassification (code : Str) : Option NAICSClassification :=
  match getIndustry code with
  | none => none
  | some industry =>
    let sector := code.take 2
    let subsector := if 3 ≤ code.length then some (code.take 3) else none
    let industryGroup := if 4 ≤ code.length then some (code.take 4) else none
    some { code := industry.code
           title := industry.title
           sector := sector
           sectorName := industry.sector.name
           subsector := subsector
           industryGroup := industryGroup
           industryGroupName := getIndustryGroupName industryGroup }

/-- C1: for every code that is a key of the classification table,
`getClassification code` returns a record whose sector field is the first 2
characters of the code, whose subsector field is the first 3 characters (unset
below length 3) and whose industryGroup field is the first 4 characters (unset
below length 4); in particular code 541511 resolves to sector 54, subsector
541 and industry group 5415. -/
theorem C1_getClassification_prefix_slicing :
    (NAICS_DATA.all (fun p =>
      ((getClassification p.1).map (fun r => r.sector) == some (p.1.take 2)) &&
      ((getClassification p.1).map (fun r => r.subsector) ==
        some (if 3 ≤ p.1.length then some (p.1.take 3) else none)) &&
      ((getClassification p.1).map (fun r => r.industryGroup) ==
        some (if 4 ≤ p.1.length then some (p.1.take 4) else none))) = true) ∧
    (getClassification ("541511".toList)).map
        (fun r => (r.sector, r.subsector, r.industryGroup)) =
      some ("54".toList, some ("541".toList), some ("5415".toList)) := by
  constructor
  · decide
  · decide

/- ## Slug and name derivation: mdx-generator.ts and generate-samples.js -/

/-- Regex replace of `([a-z])([A-Z])` by `$1-$2`, global: insert a hyphen at
each lower-to-upper boundary, the engine resuming after each two-char match
(so the second character of a match cannot start another match).  `prev` is
the preceding character when it is still available as a match start. -/
def hyCamGo : Option Char → Str → Str
  | _, [] => []
  | prev, b :: rest =>
    match prev with
    | some a =>
      if isLowerAlphaB a && isUpperAlphaB b then '-' :: b :: hyCamGo none rest
      else b :: hyCamGo (some b) rest
    | none => b :: hyCamGo (some b) rest

def hyphenateCamel (l : Str) : Str :=
  match l with
  | [] => []
  | a :: rest => a :: hyCamGo (some a) rest

/-- Global regex replace of every maximal run of characters satisfying `p`
by a single hyphen (the `[\s_()]+` and `\s+` replaces of the source).
`inRun` tells whether the previous character belonged to a run whose
replacement hyphen has already been emitted. -/
def collapseGo (p : Char → Bool) : Bool → Str → Str
  | _, [] => []
  | inRun, c :: rest =>
    if p c then
      if inRun then collapseGo p true rest else '-' :: collapseGo p true rest
    else c :: collapseGo p false rest

def collapseRuns (p : Char → Bool) (l : Str) : Str := collapseGo p false l

/-- `ServiceMDXGenerator.toKebabCase`: camel-boundary hyphens, separator runs
to hyphens, strip everything outside `[a-zA-Z0-9-]`, lowercase. -/
def toKebabCase (s : Str) : Str :=
  ((collapseRuns (fun c => jsWsB c || c == '_' || c == '(' || c == ')')
      (hyphenateCamel s)).filter
    (fun c => isAlnumB c || c == '-')).map lowerChar

/-- The kebab slug of generate-samples.js `generateServiceMDX`:
`name.toLowerCase().replace(/\s+/g, '-').replace(/[()]/g, '')`. -/
def sampleKebabName (s : Str) : Str :=
  (collapseRuns jsWsB (s.map lowerChar)).filter (fun c => !(c == '(' || c == ')'))

/-- The pascal name of generate-samples.js:
`name.replace(/\s+/g, '').replace(/[()]/g, '')`. -/
def samplePascalName (s : Str) : Str :=
  (s.filter (fun c => !jsWsB c)).filter (fun c => !(c == '(' || c == ')'))

/-- First character lowercased, rest unchanged (the spec's description of
`toVariableName`, and the `charAt(0).toLowerCase() + slice(1)` of
generate-samples.js). -/
def lowerFirst : Str → Str
  | [] => []
  | c :: rest => lowerChar c :: rest

/-- The camel name of generate-samples.js. -/
def sampleCamelName (s : Str) : Str := lowerFirst (samplePascalName s)

/-- Line terminators, which the regex `.` does not match. -/
def isLineTermB (c : Char) : Bool :=
  c.toNat = 10 || c.toNat = 13 || c.toNat = 0x2028 || c.toNat = 0x2029

/-- The backtracking step of one `[^a-zA-Z0-9]+(.)` match attempt: when the
character after the greedy non-alphanumeric run is absent or a line
terminator, the capture group falls back to the last non-line-terminator
character of the run, provided at least one run character precedes it. -/
def runBacktrack (run after : Str) : Option (Char × Str) :=
  if 2 ≤ run.length - (run.reverse.takeWhile isLineTermB).length then
    match run.reverse.drop ((run.reverse.takeWhile isLineTermB).length) with
    | cap :: _ =>
      some (cap,
        run.drop (run.length - (run.reverse.takeWhile isLineTermB).length) ++ after)
    | [] => none
  else none

/-- One match attempt of `[^a-zA-Z0-9]+(.)` at the head of `l` (whose head is
assumed non-alphanumeric): greedily consume the non-alphanumeric run, then
capture one character after it (the regex dot does not match a line
terminator), backtracking into the run when needed.  Returns the captured
character and the remainder after the match. -/
def boundaryMatch (l : Str) : Option (Char × Str) :=
  match l.dropWhile (fun c => !isAlnumB c) with
  | x :: rest =>
    if !isLineTermB x then some (x, rest)
    else runBacktrack (l.takeWhile (fun c => !isAlnumB c)) (x :: rest)
  | [] => runBacktrack (l.takeWhile (fun c => !isAlnumB c)) []

theorem runBacktrack_length (run after : Str) (cap : Char) (r' : Str)
    (h : runBacktrack run after = some (cap, r')) :
    r'.length + 2 ≤ run.length + after.length := by
  have hk : (run.reverse.takeWhile isLineTermB).length ≤ run.length := by
    have := ( List.takeWhile_prefix (l := run.reverse) isLineTermB).sublist.length_le
    simpa using this
  unfold runBacktrack at h
  split at h
  · rename_i h2
    split at h
    · simp only [Option.some.injEq, Prod.mk.injEq] at h
      obtain ⟨-, hr⟩ := h
      subst hr
      simp only [List.length_append, List.length_drop]
      omega
    · simp at h
  · simp at h

theorem boundaryMatch_length_lt (l : Str) (cap : Char) (rest' : Str)
    (h : boundaryMatch l = some (cap, rest')) : rest'.length < l.length := by
  have hsplit : (l.takeWhile (fun c => !isAlnumB c)).length +
      (l.dropWhile (fun c => !isAlnumB c)).length = l.length := by
    conv_rhs => rw [← List.takeWhile_append_dropWhile (p := fun c => !isAlnumB c) (l := l)]
    rw [List.length_append]
  unfold boundaryMatch at h
  split at h
  · rename_i x rest heq
    split at h
    · simp only [Option.some.injEq, Prod.mk.injEq] at h
      obtain ⟨-, hr⟩ := h
      subst hr
      rw [heq] at hsplit
      simp at hsplit
      omega
    · have hlen := runBacktrack_length _ _ _ _ h
      rw [heq] at hsplit
      simp at hsplit
      simp at hlen
      omega
  · rename_i heq
    have hlen := runBacktrack_length _ _ _ _ h
    rw [heq] at hsplit
    simp at hsplit
    simp at hlen
    omega

/-- Fuelled scan for `repUp`; the fuel only serves to make the recursion
structural, `repUpGo_fuel_irrel` and `repUp_cons` below certify that with
fuel at least the input length (as `repUp` supplies) the fuel never runs
out and the function satisfies the intended recurrence. -/
def repUpGo : Nat → Str → Str
  | _, [] => []
  | 0, l => l
  | fuel + 1, c :: rest =>
    if isAlnumB c then c :: repUpGo fuel rest
    else match boundaryMatch (c :: rest) with
      | some (cap, rest') => upperChar cap :: repUpGo fuel rest'
      | none => c :: repUpGo fuel rest

/-- Global regex replace of `[^a-zA-Z0-9]+(.)` by the uppercased capture
(the shared first step of `toPascalCase` and `toCamelCase`). -/
def repUp (l : Str) : Str := repUpGo l.length l

theorem repUpGo_fuel_irrel (f₁ : Nat) :
    ∀ (l : Str) (f₂ : Nat), l.length ≤ f₁ → l.length ≤ f₂ →
      repUpGo f₁ l = repUpGo f₂ l := by
  induction f₁ with
  | zero =>
    intro l f₂ h₁ _
    have : l = [] := List.length_eq_zero.mp (Nat.le_zero.mp h₁)
    subst this
    cases f₂ <;> rfl
  | succ f ih =>
    intro l f₂ h₁ h₂
    cases l with
    | nil => cases f₂ <;> rfl
    | cons c rest =>
      cases f₂ with
      | zero => simp at h₂
      | succ g =>
        have hrest₁ : rest.length ≤ f := by simp at h₁; omega
        have hrest₂ : rest.length ≤ g := by simp at h₂; omega
        show (if isAlnumB c then c :: repUpGo f rest
              else match boundaryMatch (c :: rest) with
                | some (cap, rest') => upperChar cap :: repUpGo f rest'
                | none => c :: repUpGo f rest) =
             (if isAlnumB c then c :: repUpGo g rest
              else match boundaryMatch (c :: rest) with
                | some (cap, rest') => upperChar cap :: repUpGo g rest'
                | none => c :: repUpGo g rest)
        by_cases hc : isAlnumB c
        · simp only [if_pos hc, ih rest g hrest₁ hrest₂]
        · simp only [if_neg hc]
          cases hb : boundaryMatch (c :: rest) with
          | none => simp only [ih rest g hrest₁ hrest₂]
          | some pr =>
            obtain ⟨cap, rest'⟩ := pr
            have hlt := boundaryMatch_length_lt _ _ _ hb
            simp only []
            have h₁' : rest'.length ≤ f := by simp at hlt h₁; omega
            have h₂' : rest'.length ≤ g := by simp at hlt h₂; omega
            simp only [ih rest' g h₁' h₂']

/-- The recurrence `repUp` satisfies: the fuel in `repUpGo` is invisible. -/
theorem repUp_cons (c : Char) (rest : Str) :
    repUp (c :: rest) =
      if isAlnumB c then c :: repUp rest
      else match boundaryMatch (c :: rest) with
        | some (cap, rest') => upperChar cap :: repUp rest'
        | none => c :: repUp rest := by
  show repUpGo (rest.length + 1) (c :: rest) = _
  show (if isAlnumB c then c :: repUpGo rest.length rest
        else match boundaryMatch (c :: rest) with
          | some (cap, rest') => upperChar cap :: repUpGo rest.length rest'
          | none => c :: repUpGo rest.length rest) = _
  by_cases hc : isAlnumB c
  · simp [hc, repUp]
  · simp only [if_neg hc]
    cases hb : boundaryMatch (c :: rest) with
    | none => simp [repUp]
    | some pr =>
      obtain ⟨cap, rest'⟩ := pr
      have hlt := boundaryMatch_length_lt _ _ _ hb
      simp only [repUp]
      have : rest'.length ≤ rest.length := by simp at hlt; omega
      rw [repUpGo_fuel_irrel rest.length rest' rest'.length this (Nat.le_refl _)]

/-- `ServiceMDXGenerator.toPascalCase`: uppercase after each non-alphanumeric
run, then uppercase a lowercase first character. -/
def toPascalCase (s : Str) : Str :=
  match repUp s with
  | [] => []
  | c :: rest => if isLowerAlphaB c then upperChar c :: rest else c :: rest

/-- `ServiceMDXGenerator.toCamelCase`: uppercase after each non-alphanumeric
run, then lowercase an uppercase first character. -/
def toCamelCase (s : Str) : Str :=
  match repUp s with
  | [] => []
  | c :: rest => if isUpperAlphaB c then lowerChar c :: rest else c :: rest

/-- `ServiceMDXGenerator.generateFilename`. -/
def generateFilename (serviceName : Str) : Str := toPascalCase serviceName ++ ".mdx".toList

theorem char_eq_of_toNat_eq {a b : Char} (h : a.toNat = b.toNat) : a = b :=
  Char.ext (UInt32.ext h)

theorem upperChar_toNat_of_lower (c : Char) (h : isLowerAlphaB c = true) :
    (upperChar c).toNat = c.toNat - 32 := by
  have h' := h
  simp only [isLowerAlphaB, Bool.and_eq_true, decide_eq_true_eq] at h'
  have hlt : c.toNat - 32 < 0xD800 := by omega
  simp [upperChar, h, toNat_ofNat_of_lt _ hlt]

theorem upperChar_eq_of_not_lower (c : Char) (h : isLowerAlphaB c = false) :
    upperChar c = c := by
  simp [upperChar, h]

theorem upper_false_of_lower (c : Char) (h : isLowerAlphaB c = true) :
    isUpperAlphaB c = false := by
  simp only [isLowerAlphaB, Bool.and_eq_true, decide_eq_true_eq] at h
  simp only [isUpperAlphaB, Bool.and_eq_false_iff, decide_eq_false_iff_not]
  omega

theorem isUpperAlphaB_lowerChar (c : Char) : isUpperAlphaB (lowerChar c) = false := by
  by_cases h : isUpperAlphaB c
  · have ht := lowerChar_toNat_of_upper c h
    have hc : 65 ≤ c.toNat ∧ c.toNat ≤ 90 := by
      simpa [isUpperAlphaB] using h
    simp only [isUpperAlphaB, Bool.and_eq_false_iff, decide_eq_false_iff_not, ht]
    omega
  · rw [lowerChar_eq_of_not_upper c (by simpa using h)]
    simpa using h

theorem mem_collapseGo (p : Char → Bool) (b : Bool) (l : Str) (c : Char)
    (h : c ∈ collapseGo p b l) : c = '-' ∨ (c ∈ l ∧ p c = false) := by
  induction l generalizing b with
  | nil => simp [collapseGo] at h
  | cons d rest ih =>
    by_cases hd : p d
    · cases b with
      | true =>
        simp only [collapseGo, hd, if_pos, if_true] at h
        rcases ih true h with h1 | ⟨h2, h3⟩
        · exact Or.inl h1
        · exact Or.inr ⟨List.mem_cons_of_mem _ h2, h3⟩
      | false =>
        simp only [collapseGo, hd, if_pos, if_false] at h
        rcases List.mem_cons.mp h with rfl | h'
        · exact Or.inl rfl
        · rcases ih true h' with h1 | ⟨h2, h3⟩
          · exact Or.inl h1
          · exact Or.inr ⟨List.mem_cons_of_mem _ h2, h3⟩
    · simp only [collapseGo, hd, if_neg, Bool.false_eq_true, if_false] at h
      rcases List.mem_cons.mp h with rfl | h'
      · exact Or.inr ⟨List.mem_cons_self _ _, by simpa using hd⟩
      · rcases ih false h' with h1 | ⟨h2, h3⟩
        · exact Or.inl h1
        · exact Or.inr ⟨List.mem_cons_of_mem _ h2, h3⟩

theorem slugSafe_of_toNat (c : Char)
    (hv : c.toNat = 45 ∨ (48 ≤ c.toNat ∧ c.toNat ≤ 57) ∨
          (97 ≤ c.toNat ∧ c.toNat ≤ 122)) :
    jsWsB c = false ∧ c ≠ '(' ∧ c ≠ ')' ∧ isUpperAlphaB c = false := by
  refine ⟨?_, ?_, ?_, ?_⟩
  · simp only [jsWsB, Bool.or_eq_false_iff, Bool.and_eq_false_iff,
      decide_eq_false_iff_not]
    omega
  · intro h
    subst h
    revert hv
    decide
  · intro h
    subst h
    revert hv
    decide
  · simp only [isUpperAlphaB, Bool.and_eq_false_iff, decide_eq_false_iff_not]
    omega

/-- C6: for every non-empty input, the path slug (both the
`toKebabCase` of mdx-generator.ts and the kebab slug of generate-samples.js)
contains no whitespace character, no parenthesis character, and no uppercase
ASCII letter. -/
theorem C6_toPathSlug_safe (s : Str) (_hs : s ≠ []) (c : Char)
    (hc : c ∈ toKebabCase s ∨ c ∈ sampleKebabName s) :
    jsWsB c = false ∧ c ≠ '(' ∧ c ≠ ')' ∧ isUpperAlphaB c = false := by
  rcases hc with hc | hc
  · unfold toKebabCase at hc
    rw [List.mem_map] at hc
    obtain ⟨d, hd, rfl⟩ := hc
    have hkeep := (List.mem_filter.mp hd).2
    apply slugSafe_of_toNat
    by_cases hu : isUpperAlphaB d
    · have ht := lowerChar_toNat_of_upper d hu
      have hd' : 65 ≤ d.toNat ∧ d.toNat ≤ 90 := by simpa [isUpperAlphaB] using hu
      right; right
      omega
    · rw [lowerChar_eq_of_not_upper d (by simpa using hu)]
      simp only [Bool.or_eq_true, isAlnumB, isDigitB, isUpperAlphaB, isLowerAlphaB,
        Bool.and_eq_true, decide_eq_true_eq, beq_iff_eq] at hkeep
      rcases hkeep with ((h1 | h1) | h1) | h1
      · right; left; omega
      · exfalso
        apply absurd hu
        simp only [isUpperAlphaB, Bool.and_eq_true, decide_eq_true_eq, not_not]
        omega
      · right; right; omega
      · subst h1; left; decide
  · unfold sampleKebabName at hc
    have hpar := (List.mem_filter.mp hc).2
    have hmem := (List.mem_filter.mp hc).1
    have hpar1 : c ≠ '(' ∧ c ≠ ')' := by
      simp only [Bool.not_eq_eq_eq_not, Bool.not_true, Bool.or_eq_false_iff,
        beq_eq_false_iff_ne, ne_eq] at hpar
      exact hpar
    rcases mem_collapseGo jsWsB false _ c hmem with rfl | ⟨hmem', hws⟩
    · exact slugSafe_of_toNat _ (Or.inl (by decide))
    · refine ⟨hws, hpar1.1, hpar1.2, ?_⟩
      rw [List.mem_map] at hmem'
      obtain ⟨d, -, rfl⟩ := hmem'
      exact isUpperAlphaB_lowerChar d

/-- C6 witness. -/
theorem C6_toPathSlug_safe_witness :
    (("Ab (C)".toList : Str) ≠ [] ∧ 'a' ∈ toKebabCase ("Ab (C)".toList)) ∧
    (jsWsB 'a' = false ∧ 'a' ≠ '(' ∧ 'a' ≠ ')' ∧ isUpperAlphaB 'a' = false) :=
  ⟨⟨by decide, by decide⟩,
   C6_toPathSlug_safe ("Ab (C)".toList) (by decide) 'a' (Or.inl (by decide))⟩

/-- C7: `toPascalCase` of "Full-Service Restaurants" is
"FullServiceRestaurants", `toCamelCase` of the same input is
"fullServiceRestaurants", and on every input `toCamelCase` agrees with
`toPascalCase` followed by lowercasing the first character. -/
theorem C7_identifier_casing :
    toPascalCase ("Full-Service Restaurants".toList) = "FullServiceRestaurants".toList ∧
    toCamelCase ("Full-Service Restaurants".toList) = "fullServiceRestaurants".toList ∧
    ∀ s : Str, toCamelCase s = lowerFirst (toPascalCase s) := by
  refine ⟨by decide, by decide, ?_⟩
  intro s
  unfold toCamelCase toPascalCase
  cases hr : repUp s with
  | nil => rfl
  | cons c rest =>
    show (if isUpperAlphaB c then lowerChar c :: rest else c :: rest) =
      lowerFirst (if isLowerAlphaB c then upperChar c :: rest else c :: rest)
    by_cases hl : isLowerAlphaB c
    · rw [if_pos hl, if_neg (by rw [upper_false_of_lower c hl]; exact Bool.false_ne_true)]
      have h1 := upperChar_toNat_of_lower c hl
      have hl' : 97 ≤ c.toNat ∧ c.toNat ≤ 122 := by simpa [isLowerAlphaB] using hl
      have hupper : isUpperAlphaB (upperChar c) = true := by
        simp only [isUpperAlphaB, Bool.and_eq_true, decide_eq_true_eq, h1]
        omega
      have h2 := lowerChar_toNat_of_upper _ hupper
      have h3 : lowerChar (upperChar c) = c := char_eq_of_toNat_eq (by rw [h2, h1]; omega)
      simp [lowerFirst, h3]
    · have hl' : isLowerAlphaB c = false := by simpa using hl
      by_cases hu : isUpperAlphaB c
      · simp [hl', hu, lowerFirst]
      · have hu' : isUpperAlphaB c = false := by simpa using hu
        simp [hl', hu', lowerFirst, lowerChar_eq_of_not_upper c hu']

/- ## Substring search (JavaScript `includes`) -/

/-- JavaScript `String.prototype.includes`: `pat` occurs contiguously in the
argument. -/
def containsSub (pat : Str) : Str → Bool
  | [] => pat.isEmpty
  | c :: rest => pat.isPrefixOf (c :: rest) || containsSub pat rest

/- ## Wikidata SPARQL client: src WikidataClient -/

structure WikidataService where
  qid : Str
  label : Str
  description : Option Str
  industry : Option Str
  industryQID : Option Str
  provider : Option Str
  providerQID : Option Str
  inception : Option Str
  image : Option Str
  wikipedia : Option Str
  naicsCode : Option Str
  unspscCode : Option Str
deriving DecidableEq

/-- One SPARQL result row.  A field is `some v` when the binding carries the
variable with string value `v`, and `none` when the variable is absent from
the row (JavaScript `undefined`). -/
structure SparqlBinding where
  service : Option Str
  serviceLabel : Option Str
  serviceDescription : Option Str
  industry : Option Str
  industryLabel : Option Str
  provider : Option Str
  providerLabel : Option Str
  inception : Option Str
  image : Option Str
  wikipedia : Option Str
deriving DecidableEq

structure SparqlResults where
  bindings : Option (List SparqlBinding)
deriving DecidableEq

structure SparqlResponse where
  results : Option SparqlResults
deriving DecidableEq

/-- `WikidataClient.extractQID`: the match of `/Q\d+$/`, i.e. the trailing
run of digits together with the `Q` just before it, or the empty string. -/
def extractQID (uri : Str) : Str :=
  let r := uri.reverse
  let ds := r.takeWhile isDigitB
  if ds.isEmpty then []
  else match r.drop ds.length with
    | q :: _ => if q = 'Q' then 'Q' :: ds.reverse else []
    | [] => []

/-- The `WikidataService` built from a binding whose `service` field carries
the value `u` (the body of the `map` callback of `parseServiceResults`). -/
def mkServiceWith (u : Str) (b : SparqlBinding) : WikidataService :=
  { qid := extractQID u
    label := b.serviceLabel.getD []
    description := b.serviceDescription
    industry := b.industryLabel
    industryQID := b.industry.map extractQID
    provider := b.providerLabel
    providerQID := b.provider.map extractQID
    inception := b.inception
    image := b.image
    wikipedia := b.wikipedia
    naicsCode := none
    unspscCode := none }

/-- The `map` callback of `parseServiceResults`: `extractQID` is applied to
`binding.service?.value` unguarded, so a row without `service` makes
`undefined.match` throw a TypeError, modelled as `Except.error`. -/
def mkService (b : SparqlBinding) : Except Unit WikidataService :=
  match b.service with
  | none => .error ()
  | some u => .ok (mkServiceWith u b)

/-- `WikidataClient.parseServiceResults`. -/
def parseServiceResults (r : SparqlResponse) : Except Unit (List WikidataService) :=
  match r.results with
  | none => .ok []
  | some res =>
    match res.bindings with
    | none => .ok []
    | some bs => bs.mapM mkService

theorem mapM_mkService_of_all_service (bs : List SparqlBinding)
    (h : ∀ b ∈ bs, b.service ≠ none) :
    bs.mapM mkService = .ok (bs.map (fun b => mkServiceWith (b.service.getD []) b)) := by
  induction bs with
  | nil => rfl
  | cons b t ih =>
    have hb := h b (List.mem_cons_self _ _)
    cases hu : b.service with
    | none => exact absurd hu hb
    | some u =>
      have ht := ih (fun x hx => h x (List.mem_cons_of_mem _ hx))
      rw [List.mapM_cons, ht]
      simp only [mkService, hu, List.map_cons, Option.getD_some]
      rfl

/-- C10 (amended): a response without `results` or without
`results.bindings` parses to the empty list without error; a response with a
bindings array in which every row carries a `service` value parses to exactly
one service per binding, in binding order.  (A row without `service` instead
raises a TypeError, refuting the unconditional one-per-binding reading; see
the counterexample.) -/
theorem C10_parseServiceResults (r : SparqlResponse) :
    (r.results = none → parseServiceResults r = .ok []) ∧
    (∀ res, r.results = some res → res.bindings = none →
      parseServiceResults r = .ok []) ∧
    (∀ res bs, r.results = some res → res.bindings = some bs →
      (∀ b ∈ bs, b.service ≠ none) →
      parseServiceResults r =
        .ok (bs.map (fun b => mkServiceWith (b.service.getD []) b)) ∧
      (bs.map (fun b => mkServiceWith (b.service.getD []) b)).length = bs.length) := by
  refine ⟨?_, ?_, ?_⟩
  · intro h
    simp [parseServiceResults, h]
  · intro res h1 h2
    simp [parseServiceResults, h1, h2]
  · intro res bs h1 h2 hall
    refine ⟨?_, by simp⟩
    simp only [parseServiceResults, h1, h2]
    exact mapM_mkService_of_all_service bs hall

/-- A result row carrying only the `service` variable. -/
def bindingQ7 : SparqlBinding :=
  { service := some ("http://www.wikidata.org/entity/Q7".toList)
    serviceLabel := none
    serviceDescription := none
    industry := none
    industryLabel := none
    provider := none
    providerLabel := none
    inception := none
    image := none
    wikipedia := none }

def respQ7 : SparqlResponse := { results := some { bindings := some [bindingQ7] } }

/-- A result row without the `service` variable. -/
def bindingNoService : SparqlBinding :=
  { service := none
    serviceLabel := some ("S".toList)
    serviceDescription := none
    industry := none
    industryLabel := none
    provider := none
    providerLabel := none
    inception := none
    image := none
    wikipedia := none }

def respNoService : SparqlResponse :=
  { results := some { bindings := some [bindingNoService] } }

/-- C10 witness. -/
theorem C10_parseServiceResults_witness :
    parseServiceResults respQ7 =
      .ok [mkServiceWith ("http://www.wikidata.org/entity/Q7".toList) bindingQ7] := by
  have h := ((C10_parseServiceResults respQ7).2.2 _ _ rfl rfl (by decide)).1
  simpa [bindingQ7] using h

/-- C10 counterexample: a response with one binding that lacks the `service`
variable makes `parseServiceResults` raise (undefined reaches `extractQID`
and `.match` throws), not return a one-element service list as the claim
states. -/
theorem C10_parseServiceResults_counterexample :
    respNoService.results = some { bindings := some [bindingNoService] } ∧
    parseServiceResults respNoService = Except.error () :=
  ⟨rfl, rfl⟩

/- ## Digital score heuristic: calculateDigitalScore -/

/-- The keyword test of `calculateDigitalScore`:
`industry.title.toLowerCase()` contains one of the five keywords. -/
def digitalKeywordHit (title : Str) : Bool :=
  containsSub ("computer".toList) (title.map lowerChar) ||
  containsSub ("software".toList) (title.map lowerChar) ||
  containsSub ("web".toList) (title.map lowerChar) ||
  containsSub ("data processing".toList) (title.map lowerChar) ||
  containsSub ("internet".toList) (title.map lowerChar)

/-- `calculateDigitalScore`: keyword hit scores 1.0, otherwise a fixed
per-sector default, otherwise 0.5.  Scores are exact decimal fractions. -/
def calculateDigitalScore (industry : NAICSIndustry) : ℚ :=
  if digitalKeywordHit industry.title then 1 else
  if industry.sector.code = "51".toList then 9/10 else
  if industry.sector.code = "54".toList then 7/10 else
  if industry.sector.code = "52".toList then 8/10 else
  if industry.sector.code = "62".toList then 1/2 else
  if industry.sector.code = "61".toList then 6/10 else
  if industry.sector.code = "72".toList then 3/10 else
  if industry.sector.code = "81".toList then 3/10 else
  if industry.sector.code = "48".toList ∨ industry.sector.code = "49".toList then 1/2 else
  1/2

/-- The per-sector default table as the claim states it. -/
def sectorDefaults : List (Str × ℚ) :=
  [ ("51".toList, 9/10), ("54".toList, 7/10), ("52".toList, 8/10),
    ("62".toList, 1/2), ("61".toList, 6/10), ("72".toList, 3/10),
    ("81".toList, 3/10), ("48".toList, 1/2), ("49".toList, 1/2) ]

/-- The claim's per-sector default: the listed sectors score their fixed
values, every other sector scores 0.5. -/
def sectorDefault (sc : Str) : ℚ :=
  if sc = "51".toList then 9/10 else
  if sc = "54".toList then 7/10 else
  if sc = "52".toList then 8/10 else
  if sc = "62".toList then 1/2 else
  if sc = "61".toList then 6/10 else
  if sc = "72".toList then 3/10 else
  if sc = "81".toList then 3/10 else
  if sc = "48".toList then 1/2 else
  if sc = "49".toList then 1/2 else 1/2

/-- C9: the digital score follows "first matching keyword rule wins, else
sector default, else 0.5": a keyword hit in the lowercased title scores 1.0
regardless of sector; otherwise the score is the fixed per-sector default of
`sectorDefault`; and for a sector outside the listed table the score is
exactly 0.5. -/
theorem C9_digital_score_precedence (industry : NAICSIndustry) :
    (digitalKeywordHit industry.title = true → calculateDigitalScore industry = 1) ∧
    (digitalKeywordHit industry.title = false →
      calculateDigitalScore industry = sectorDefault industry.sector.code) ∧
    (digitalKeywordHit industry.title = false →
      (∀ p ∈ sectorDefaults, industry.sector.code ≠ p.1) →
      calculateDigitalScore industry = 1/2) := by
  refine ⟨?_, ?_, ?_⟩
  · intro h
    simp [calculateDigitalScore, h]
  · intro h
    simp only [calculateDigitalScore, sectorDefault, h, Bool.false_eq_true,
      if_false, ite_self]
  · intro h hne
    have h51 : industry.sector.code ≠ ['5', '1'] := by
      simpa using hne ("51".toList, 9/10) (by simp [sectorDefaults])
    have h54 : industry.sector.code ≠ ['5', '4'] := by
      simpa using hne ("54".toList, 7/10) (by simp [sectorDefaults])
    have h52 : industry.sector.code ≠ ['5', '2'] := by
      simpa using hne ("52".toList, 8/10) (by simp [sectorDefaults])
    have h62 : industry.sector.code ≠ ['6', '2'] := by
      simpa using hne ("62".toList, 1/2) (by simp [sectorDefaults])
    have h61 : industry.sector.code ≠ ['6', '1'] := by
      simpa using hne ("61".toList, 6/10) (by simp [sectorDefaults])
    have h72 : industry.sector.code ≠ ['7', '2'] := by
      simpa using hne ("72".toList, 3/10) (by simp [sectorDefaults])
    have h81 : industry.sector.code ≠ ['8', '1'] := by
      simpa using hne ("81".toList, 3/10) (by simp [sectorDefaults])
    have h48 : industry.sector.code ≠ ['4', '8'] := by
      simpa using hne ("48".toList, 1/2) (by simp [sectorDefaults])
    have h49 : industry.sector.code ≠ ['4', '9'] := by
      simpa using hne ("49".toList, 1/2) (by simp [sectorDefaults])
    simp [calculateDigitalScore, h, h51, h54, h52, h62, h61, h72, h81, h48, h49]

/-- C9 witness industries. -/
def wIndustryKw : NAICSIndustry :=
  { code := "541511".toList
    title := "Custom Computer Programming Services".toList
    description := none
    sector := sector54 }

def wIndustrySector : NAICSIndustry :=
  { code := "722511".toList
    title := "Full-Service Restaurants".toList
    description := none
    sector := sector72 }

def wIndustryOther : NAICSIndustry :=
  { code := "111110".toList
    title := "Soybean Farming".toList
    description := none
    sector := { code := "11".toList
                name := "Agriculture, Forestry, Fishing and Hunting".toList
                description := none } }

/-- C9 witness. -/
theorem C9_digital_score_witness :
    calculateDigitalScore wIndustryKw = 1 ∧
    calculateDigitalScore wIndustrySector = sectorDefault ("72".toList) ∧
    calculateDigitalScore wIndustryOther = 1/2 :=
  ⟨(C9_digital_score_precedence wIndustryKw).1 (by decide),
   (C9_digital_score_precedence wIndustrySector).2.1 (by decide),
   (C9_digital_score_precedence wIndustryOther).2.2 (by decide)
     (by intro p hp; fin_cases hp <;> decide)⟩

/- ## Document renderer: src/scripts/mdx-generator.ts -/

/-- JavaScript `a || dflt` for an optional string `a`: absent and empty are
falsy. -/
def jsOrStr (v : Option Str) (dflt : Str) : Str :=
  match v with
  | some s => if s.isEmpty then dflt else s
  | none => dflt

/-- JavaScript truthiness of an optional string. -/
def jsTruthyStr : Option Str → Bool
  | none => false
  | some s => !s.isEmpty

/-- `Array.prototype.join(sep)`, and the backbone of template literals of the
shape `a + sep + b + sep + ...`. -/
def joinSep (sep : Str) : List Str → Str
  | [] => []
  | [x] => x
  | x :: rest => x ++ sep ++ joinSep sep rest

def natToStr (n : Nat) : Str := Nat.toDigits 10 n

/-- Decimal expansion digits of the fraction `r / d` (`r < d`), up to 20
places; terminates early when the remainder vanishes. -/
def fracDigits : Nat → Nat → Nat → Str
  | 0, _, _ => []
  | _ + 1, 0, _ => []
  | fuel + 1, r, d => Nat.toDigits 10 (r * 10 / d) ++ fracDigits fuel (r * 10 % d) d

/-- JavaScript number-to-string conversion for the scores the generator
uses: all of them are exact decimal fractions (tenths), printed without a
trailing `.0` (`1` for 1.0, `0.7` for 0.7), exactly as JavaScript prints
these values. -/
def ratToStr (q : ℚ) : Str :=
  let sign : Str := if q.num < 0 then "-".toList else []
  let n := q.num.natAbs
  let d := q.den
  if n % d = 0 then sign ++ natToStr (n / d)
  else sign ++ natToStr (n / d) ++ ".".toList ++ fracDigits 20 (n % d) d

/-- `str.split('/').pop()`: the part after the last slash. -/
def lastSegment (s : Str) : Str :=
  (s.reverse.takeWhile (fun c => !(c = '/'))).reverse

/-- JavaScript `String.prototype.trim`. -/
def jsTrim (s : Str) : Str :=
  ((s.dropWhile jsWsB).reverse.dropWhile jsWsB).reverse

/-- The `sectorTypes` table of `ServiceMDXGenerator.getServiceType`. -/
def sectorTypes : List (Str × Str) :=
  [ ("54".toList, "Professional Service".toList),
    ("62".toList, "Healthcare Service".toList),
    ("61".toList, "Educational Service".toList),
    ("52".toList, "Financial Service".toList),
    ("72".toList, "Hospitality Service".toList),
    ("81".toList, "Personal Service".toList),
    ("51".toList, "Information Service".toList),
    ("48".toList, "Transportation Service".toList),
    ("49".toList, "Transportation Service".toList),
    ("56".toList, "Support Service".toList) ]

/-- `ServiceMDXGenerator.getServiceType`, keyed on the sector code (the only
field the method reads; the examples section calls it with an object carrying
only `sector`). -/
def getServiceTypeOfSector (sector : Str) : Str :=
  ((sectorTypes.find? (fun p => p.1 == sector)).map (fun p => p.2)).getD
    ("Professional Service".toList)

def getServiceType (classification : NAICSClassification) : Str :=
  getServiceTypeOfSector classification.sector

/-- `ServiceMDXGenerator.generateFrontmatter`, parameterized by the fields of
`industry` it reads (`title`, `description`). -/
def generateFrontmatter (title : Str) (description : Option Str)
    (classification : NAICSClassification) (wikidata : Option WikidataService)
    (digital : ℚ) : Str :=
  joinSep ("\n".toList)
    ([ "---".toList,
       "$id: https://services.org.ai/".toList ++ toKebabCase title,
       "$context: https://schema.org.ai".toList,
       "$type: Service".toList,
       "name: ".toList ++ title,
       "description: ".toList ++ jsOrStr description ("Service type".toList),
       "naics:".toList,
       "  code: \"".toList ++ classification.code ++ "\"".toList,
       "  title: \"".toList ++ classification.title ++ "\"".toList,
       "  sector: \"".toList ++ classification.sector ++ "\"".toList,
       "  sectorName: \"".toList ++ classification.sectorName ++ "\"".toList ]
     ++ (if jsTruthyStr classification.subsector then
          ["  subsector: \"".toList ++ classification.subsector.getD [] ++ "\"".toList]
         else [])
     ++ (if jsTruthyStr classification.industryGroup then
          ["  industryGroup: \"".toList ++ classification.industryGroup.getD [] ++ "\"".toList]
         else [])
     ++ (if jsTruthyStr classification.industryGroupName then
          ["  industryGroupName: \"".toList ++ classification.industryGroupName.getD [] ++ "\"".toList]
         else [])
     ++ (match wikidata with
         | some w =>
           ["wikidata: https://www.wikidata.org/wiki/".toList ++ w.qid]
           ++ (if jsTruthyStr w.wikipedia then
                ["wikipedia: ".toList ++ w.wikipedia.getD []]
               else [])
         | none => [])
     ++ [ "digital: ".toList ++ ratToStr digital,
          "category: Service".toList,
          "serviceType: ".toList ++ getServiceType classification,
          "---".toList ])

/-- `ServiceMDXGenerator.generateBreadcrumb`. -/
def generateBreadcrumb (classification : NAICSClassification) : Str :=
  "[Thing](https://schema.org.ai/Thing) > [Service](Service.mdx) > ".toList ++
    classification.sectorName

/-- `ServiceMDXGenerator.generatePropertiesSection`: static schema table. -/
def generatePropertiesSection : Str :=
  ("## Properties\n\n| Property | Type | Description | Inherited From |\n|----------|------|-------------|----------------|\n| name | Text | The name of the service | Thing |\n| description | Text | A description of the service | Thing |\n| provider | Organization \\| Person | The service provider | Service |\n| serviceType | Text | The type of service | Service |\n| areaServed | Place \\| GeoShape | Geographic area served | Service |\n| category | Text \\| Thing | Category of the service | Service |\n| hoursAvailable | OpeningHoursSpecification | Service hours | Service |\n| offers | Offer | Service offer details | Service |\n| availableChannel | ServiceChannel | How to access the service | Service |").toList

/-- `ServiceMDXGenerator.generateClassificationSection`. -/
def generateClassificationSection (classification : NAICSClassification)
    (wikidata : Option WikidataService) : Str :=
  joinSep ("\n".toList)
    ([ "## Classification".toList,
       [],
       "- **NAICS**: ".toList ++ classification.code ++ " (".toList ++
         (classification.sectorName
          ++ (if jsTruthyStr classification.industryGroupName then
               " > ".toList ++ classification.industryGroupName.getD []
              else [])
          ++ " > ".toList ++ classification.title) ++ ")".toList ]
     ++ (match wikidata with
         | some w =>
           [ "- **Wikidata**: [".toList ++ w.qid ++
               "](https://www.wikidata.org/wiki/".toList ++ w.qid ++ ")".toList ]
           ++ (if jsTruthyStr w.wikipedia then
                [ "- **Wikipedia**: [".toList ++ lastSegment (w.wikipedia.getD [])
                    ++ "](".toList ++ w.wikipedia.getD [] ++ ")".toList ]
               else [])
         | none => []))

/-- `ServiceMDXGenerator.generateExamplesSection`, parameterized by the
fields of `industry` it reads (`title`, `description`, `sector.code`). -/
def generateExamplesSection (title : Str) (description : Option Str)
    (sectorCode : Str) : Str :=
  "## Examples\n\n```typescript\nimport \x7b $ \x7d from '@org.ai/services'\n\n// Create a basic service\nconst ".toList ++
  (toCamelCase title ++
  (" = $.".toList ++
  (toPascalCase title ++
  (".create(\x7b\n  name: 'Example ".toList ++
  (title ++
  ("',\n  description: '".toList ++
  (jsOrStr description ("Service description".toList) ++
  ("',\n  provider: 'Example Company',\n  serviceType: '".toList ++
  (getServiceTypeOfSector sectorCode ++
  ("',\n  areaServed: 'United States'\n\x7d)\n\n// With additional properties\nconst detailed".toList ++
  (toPascalCase title ++
  (" = $.".toList ++
  (toPascalCase title ++
  (".create(\x7b\n  name: 'Premium ".toList ++
  (title ++
  ("',\n  description: 'Premium service with enhanced features',\n  provider: \x7b\n    name: 'Premium Service Provider',\n    type: 'Organization'\n  \x7d,\n  serviceType: '".toList ++
  (getServiceTypeOfSector sectorCode ++
  ("',\n  areaServed: \x7b\n    name: 'San Francisco Bay Area',\n    type: 'Place'\n  \x7d,\n  hoursAvailable: \x7b\n    dayOfWeek: ['Monday', 'Tuesday', 'Wednesday', 'Thursday', 'Friday'],\n    opens: '09:00',\n    closes: '17:00'\n  \x7d\n\x7d)\n\n// Query services\nconst allServices = $.".toList ++
  (toPascalCase title ++
  ".find()\n```".toList)))))))))))))))))))

/-- `ServiceMDXGenerator.generateResourcesSection`. -/
def generateResourcesSection (wikidata : Option WikidataService)
    (classification : Option NAICSClassification) : Str :=
  joinSep ("\n".toList)
    ([ "## Resources".toList,
       [],
       "- [Schema.org Service](https://schema.org/Service)".toList ]
     ++ (match classification with
         | some c =>
           [ "- [NAICS ".toList ++ c.code ++
               "](https://www.census.gov/naics/?input=".toList ++ c.code ++ ")".toList ]
         | none => [])
     ++ (match wikidata with
         | some w =>
           [ "- [Wikidata: ".toList ++ w.label ++ " (".toList ++ w.qid ++
               ")](https://www.wikidata.org/wiki/".toList ++ w.qid ++ ")".toList ]
           ++ (if jsTruthyStr w.wikipedia then
                [ "- [Wikipedia: ".toList ++ lastSegment (w.wikipedia.getD []) ++
                    "](".toList ++ w.wikipedia.getD [] ++ ")".toList ]
               else [])
         | none => []))

/-- The `description` computed by `generate` (line 32 of mdx-generator.ts):
`industry.description || wikidata?.description || title + ' service.'`. -/
def descriptionOf (title : Str) (description : Option Str)
    (wikidata : Option WikidataService) : Str :=
  if jsTruthyStr description then description.getD []
  else if jsTruthyStr (wikidata.bind (fun w => w.description)) then
    (wikidata.bind (fun w => w.description)).getD []
  else title ++ " service.".toList

/-- The eight template slots of `generate`, in order, parameterized by the
fields of `industry` the method reads. -/
def generateSectionsFrom (title : Str) (description : Option Str)
    (sectorCode : Str) (classification : NAICSClassification)
    (wikidata : Option WikidataService) (digital : ℚ) (examples : Bool) :
    List Str :=
  [ generateFrontmatter title description classification wikidata digital,
    generateBreadcrumb classification,
    "# ".toList ++ title,
    descriptionOf title description wikidata,
    generatePropertiesSection,
    generateClassificationSection classification wikidata,
    if examples then generateExamplesSection title description sectorCode else [],
    generateResourcesSection wikidata (some classification) ]

/-- The body of `generate` after destructuring. -/
def generateFrom (title : Str) (description : Option Str) (sectorCode : Str)
    (classification : NAICSClassification) (wikidata : Option WikidataService)
    (digital : ℚ) (examples : Bool) : Str :=
  jsTrim (joinSep ("\n\n".toList)
    (generateSectionsFrom title description sectorCode classification wikidata
      digital examples))

structure ServiceMDXOptions where
  industry : NAICSIndustry
  classification : NAICSClassification
  wikidata : Option WikidataService
  digital : Option ℚ
  examples : Option Bool
deriving DecidableEq

def generateSections (options : ServiceMDXOptions) : List Str :=
  generateSectionsFrom options.industry.title options.industry.description
    options.industry.sector.code options.classification options.wikidata
    (options.digital.getD (mkRat 7 10)) (options.examples.getD true)

/-- `ServiceMDXGenerator.generate`: destructure the options with defaults
`digital = 0.7`, `examples = true`, build the eight sections, join them with
blank lines and trim. -/
def generate (options : ServiceMDXOptions) : Str :=
  jsTrim (joinSep ("\n\n".toList) (generateSections options))

/- ## Occurrence of a pattern in a string -/

/-- `pat` occurs contiguously inside `s`. -/
def OccursIn (pat s : Str) : Prop := ∃ t u, s = t ++ pat ++ u

theorem occursIn_append_of_left (p u v : Str) (h : OccursIn p u) :
    OccursIn p (u ++ v) := by
  obtain ⟨t, w, rfl⟩ := h
  exact ⟨t, w ++ v, by simp⟩

theorem occursIn_append_of_right (p u v : Str) (h : OccursIn p v) :
    OccursIn p (u ++ v) := by
  obtain ⟨t, w, rfl⟩ := h
  exact ⟨u ++ t, w, by simp⟩

theorem occursIn_nil_elim (p : Str) (h : OccursIn p []) : p = [] := by
  obtain ⟨t, u, ht⟩ := h
  have := ht.symm
  simp only [List.append_eq_nil] at this
  exact this.1.2

theorem containsSub_iff_occursIn (pat s : Str) :
    containsSub pat s = true ↔ OccursIn pat s := by
  induction s with
  | nil =>
    show pat.isEmpty = true ↔ _
    rw [List.isEmpty_iff]
    constructor
    · rintro rfl
      exact ⟨[], [], rfl⟩
    · intro h
      exact occursIn_nil_elim _ h
  | cons c rest ih =>
    show (pat.isPrefixOf (c :: rest) || containsSub pat rest) = true ↔ _
    rw [Bool.or_eq_true, ih, List.isPrefixOf_iff_prefix]
    constructor
    · rintro (⟨u, hu⟩ | ⟨t, u, hocc⟩)
      · exact ⟨[], u, by simp [hu.symm]⟩
      · exact ⟨c :: t, u, by simp [hocc]⟩
    · rintro ⟨t, u, heq⟩
      cases t with
      | nil =>
        left
        exact ⟨u, by simpa using heq.symm⟩
      | cons a t' =>
        right
        simp only [List.cons_append, List.cons.injEq] at heq
        exact ⟨t', u, heq.2⟩

theorem occursIn_split (p a b : Str) (c : Char) (hc : c ∉ p)
    (h : OccursIn p (a ++ c :: b)) : OccursIn p a ∨ OccursIn p b := by
  obtain ⟨t, u, heq⟩ := h
  rw [List.append_assoc] at heq
  rcases List.append_eq_append_iff.mp heq with ⟨w, hw1, hw2⟩ | ⟨w, hw1, hw2⟩
  · cases w with
    | nil =>
      simp only [List.nil_append] at hw2
      cases hp : p with
      | nil => exact Or.inl ⟨[], a, by simp⟩
      | cons q p' =>
        rw [hp] at hw2
        simp only [List.cons_append, List.cons.injEq] at hw2
        exact absurd (show c ∈ p by rw [hp, hw2.1]; exact List.mem_cons_self q p') hc
    | cons d w' =>
      simp only [List.cons_append, List.cons.injEq] at hw2
      exact Or.inr ⟨w', u, by rw [hw2.2, List.append_assoc]⟩
  · rcases List.append_eq_append_iff.mp hw2 with ⟨x, hx1, hx2⟩ | ⟨y, hy1, hy2⟩
    · exact Or.inl ⟨t, x, by rw [hw1, hx1, List.append_assoc]⟩
    · cases y with
      | nil =>
        simp only [List.append_nil] at hy1
        exact Or.inl ⟨t, [], by rw [hw1, hy1]; simp⟩
      | cons e y' =>
        simp only [List.cons_append, List.cons.injEq] at hy2
        refine absurd ?_ hc
        rw [hy1, hy2.1]
        exact List.mem_append_right _ (List.mem_cons_self _ _)

theorem occursIn_joinSep_of_mem (p sep : Str) (parts : List Str) (x : Str)
    (hx : x ∈ parts) (h : OccursIn p x) : OccursIn p (joinSep sep parts) := by
  induction parts with
  | nil => simp at hx
  | cons a t ih =>
    cases t with
    | nil =>
      rw [List.mem_singleton.mp hx] at h
      simpa [joinSep] using h
    | cons b t' =>
      rw [show joinSep sep (a :: b :: t') = a ++ sep ++ joinSep sep (b :: t') from rfl]
      rcases List.mem_cons.mp hx with rfl | hx'
      · exact occursIn_append_of_left _ _ _ (occursIn_append_of_left _ _ _ h)
      · exact occursIn_append_of_right _ _ _ (ih hx')

theorem occursIn_joinSep_elim (p : Str) (hp : p ≠ []) (hnl : '\n' ∉ p)
    (parts : List Str) (h : OccursIn p (joinSep ("\n\n".toList) parts)) :
    ∃ x ∈ parts, OccursIn p x := by
  induction parts with
  | nil =>
    exact absurd (occursIn_nil_elim _ (by simpa [joinSep] using h)) hp
  | cons a t ih =>
    cases t with
    | nil => exact ⟨a, by simp, by simpa [joinSep] using h⟩
    | cons b t' =>
      have h' : OccursIn p
          (a ++ '\n' :: ('\n' :: joinSep ("\n\n".toList) (b :: t'))) := by
        have : joinSep ("\n\n".toList) (a :: b :: t') =
            a ++ "\n\n".toList ++ joinSep ("\n\n".toList) (b :: t') := rfl
        rw [this, List.append_assoc] at h
        simpa using h
      rcases occursIn_split p a _ '\n' hnl h' with h1 | h2
      · exact ⟨a, by simp, h1⟩
      · have h2' : OccursIn p
            ([] ++ '\n' :: joinSep ("\n\n".toList) (b :: t')) := by simpa using h2
        rcases occursIn_split p [] _ '\n' hnl h2' with h3 | h4
        · exact absurd (occursIn_nil_elim _ h3) hp
        · obtain ⟨x, hx, hocc⟩ := ih h4
          exact ⟨x, List.mem_cons_of_mem _ hx, hocc⟩

theorem occursIn_of_dropWhile (p : Str) (q : Char → Bool) (s : Str)
    (h : OccursIn p (s.dropWhile q)) : OccursIn p s := by
  obtain ⟨t, hts⟩ := List.dropWhile_suffix (l := s) q
  rw [← hts]
  exact occursIn_append_of_right _ _ _ h

theorem occursIn_reverse (p s : Str) (h : OccursIn p s) :
    OccursIn p.reverse s.reverse := by
  obtain ⟨t, u, rfl⟩ := h
  exact ⟨u.reverse, t.reverse, by simp⟩

theorem occursIn_of_jsTrim (p s : Str) (h : OccursIn p (jsTrim s)) :
    OccursIn p s := by
  unfold jsTrim at h
  have h1 := occursIn_reverse _ _ h
  rw [List.reverse_reverse] at h1
  have h2 := occursIn_of_dropWhile _ _ _ h1
  have h3 := occursIn_reverse _ _ h2
  simp only [List.reverse_reverse] at h3
  exact occursIn_of_dropWhile _ _ _ h3

theorem occursIn_dropWhile_of_head (p : Str) (q : Char → Bool) (s : Str)
    (hd : ∃ c p', p = c :: p' ∧ q c = false)
    (h : OccursIn p s) : OccursIn p (s.dropWhile q) := by
  obtain ⟨c, p', rfl, hqc⟩ := hd
  obtain ⟨t, u, rfl⟩ := h
  induction t with
  | nil =>
    simp only [List.nil_append, List.cons_append, List.dropWhile_cons, hqc,
      Bool.false_eq_true, if_false]
    exact ⟨[], u, by simp⟩
  | cons a t' ih =>
    by_cases hqa : q a
    · simpa [List.dropWhile_cons, hqa] using ih
    · simp only [List.cons_append, List.dropWhile_cons, hqa, Bool.false_eq_true,
        if_false]
      exact ⟨a :: t', u, by simp⟩

theorem occursIn_jsTrim (p s : Str)
    (hhead : ∃ c p', p = c :: p' ∧ jsWsB c = false)
    (hlast : ∃ c p', p.reverse = c :: p' ∧ jsWsB c = false)
    (h : OccursIn p s) : OccursIn p (jsTrim s) := by
  unfold jsTrim
  have h1 := occursIn_dropWhile_of_head p jsWsB s hhead h
  have h2 := occursIn_reverse _ _ h1
  have h3 := occursIn_dropWhile_of_head _ jsWsB _ hlast h2
  have h4 := occursIn_reverse _ _ h3
  simpa using h4

/- ## Claims about the renderer -/

def wClass : NAICSClassification :=
  { code := "541511".toList
    title := "Custom Computer Programming Services".toList
    sector := "54".toList
    sectorName := sector54.name
    subsector := some ("541".toList)
    industryGroup := some ("5415".toList)
    industryGroupName := some ("Computer Systems Design and Related Services".toList) }

def cexIndustryRecDesc : NAICSIndustry :=
  { code := "541511".toList
    title := "T".toList
    description := some ("A".toList)
    sector := sector54 }

def cexWikidataDesc : WikidataService :=
  { qid := "Q1".toList
    label := "L".toList
    description := some ("B".toList)
    industry := none
    industryQID := none
    provider := none
    providerQID := none
    inception := none
    image := none
    wikipedia := none
    naicsCode := none
    unspscCode := none }

def wOptsA : ServiceMDXOptions :=
  { industry := cexIndustryRecDesc
    classification := wClass
    wikidata := some cexWikidataDesc
    digital := none
    examples := none }

def wOptsB : ServiceMDXOptions :=
  { industry := { cexIndustryRecDesc with description := none }
    classification := wClass
    wikidata := some cexWikidataDesc
    digital := none
    examples := none }

def wOptsC : ServiceMDXOptions :=
  { industry := { cexIndustryRecDesc with description := some [] }
    classification := wClass
    wikidata := none
    digital := none
    examples := none }

/-- C2 (amended): in the rendered document's description, the record's
`description` wins whenever it is present and non-empty; the enrichment
facts' description is used only when the record's is absent or empty; when
both are absent or empty the description is the synthesized
"title service." string.  The fourth slot of the rendered document is that
description. -/
theorem C2_description_precedence (options : ServiceMDXOptions) :
    (jsTruthyStr options.industry.description = true →
      descriptionOf options.industry.title options.industry.description
          options.wikidata =
        options.industry.description.getD []) ∧
    (jsTruthyStr options.industry.description = false →
      jsTruthyStr (options.wikidata.bind (fun w => w.description)) = true →
      descriptionOf options.industry.title options.industry.description
          options.wikidata =
        (options.wikidata.bind (fun w => w.description)).getD []) ∧
    (jsTruthyStr options.industry.description = false →
      jsTruthyStr (options.wikidata.bind (fun w => w.description)) = false →
      descriptionOf options.industry.title options.industry.description
          options.wikidata =
        options.industry.title ++ " service.".toList) ∧
    (generateSections options).get? 3 =
      some (descriptionOf options.industry.title options.industry.description
        options.wikidata) := by
  refine ⟨?_, ?_, ?_, rfl⟩
  · intro h
    simp [descriptionOf, h]
  · intro h1 h2
    simp [descriptionOf, h1, h2]
  · intro h1 h2
    simp [descriptionOf, h1, h2]

/-- C2 witness. -/
theorem C2_description_witness :
    descriptionOf wOptsA.industry.title wOptsA.industry.description wOptsA.wikidata =
      wOptsA.industry.description.getD [] ∧
    descriptionOf wOptsB.industry.title wOptsB.industry.description wOptsB.wikidata =
      (wOptsB.wikidata.bind (fun w => w.description)).getD [] ∧
    descriptionOf wOptsC.industry.title wOptsC.industry.description wOptsC.wikidata =
      wOptsC.industry.title ++ " service.".toList :=
  ⟨(C2_description_precedence wOptsA).1 (by decide),
   (C2_description_precedence wOptsB).2.1 (by decide) (by decide),
   (C2_description_precedence wOptsC).2.2.1 (by decide) (by decide)⟩

/-- C2 counterexample: the record's description is "A" (present, non-empty)
and the enrichment facts' description is "B" (present, non-empty); the
rendered description is "A", not the facts' "B" as the claim states. -/
theorem C2_description_counterexample :
    cexWikidataDesc.description = some ("B".toList) ∧ ("B".toList : Str) ≠ [] ∧
    descriptionOf cexIndustryRecDesc.title cexIndustryRecDesc.description
        (some cexWikidataDesc) = "A".toList ∧
    ("A".toList : Str) ≠ "B".toList :=
  ⟨rfl, by decide, by decide, by decide⟩

/-- C3: `generate` is deterministic: it is a pure function of its options
record (the shallow embedding is state-free, exactly as the source method
reads nothing but its arguments and module-level constants), so two calls on
identical inputs give byte-identical output. -/
theorem C3_generate_deterministic (o₁ o₂ : ServiceMDXOptions) (h : o₁ = o₂) :
    generate o₁ = generate o₂ := congrArg generate h

/-- C3 witness. -/
theorem C3_generate_deterministic_witness : generate wOptsA = generate wOptsA :=
  C3_generate_deterministic wOptsA wOptsA rfl

/- ## C4: behaviour on records missing required fields -/

/-- `NAICSIndustry` as JavaScript sees it at runtime: `code` and `title`
may be absent despite the TypeScript annotations. -/
structure RawNAICSIndustry where
  code : Option Str
  title : Option Str
  description : Option Str
  sector : NAICSSector
deriving DecidableEq

structure RawServiceMDXOptions where
  industry : RawNAICSIndustry
  classification : NAICSClassification
  wikidata : Option WikidataService
  digital : Option ℚ
  examples : Option Bool
deriving DecidableEq

/-- `generate` on a runtime record: the first use of `industry.title` is
`toKebabCase(industry.title)`, whose `.replace` on `undefined` throws a
TypeError (modelled `Except.error`); `industry.code` is never read by
`generate`, so its absence cannot be detected. -/
def rawGenerate (options : RawServiceMDXOptions) : Except Unit Str :=
  match options.industry.title with
  | none => .error ()
  | some t =>
    .ok (generateFrom t options.industry.description options.industry.sector.code
      options.classification options.wikidata (options.digital.getD (mkRat 7 10))
      (options.examples.getD true))

def rawOfOptions (o : ServiceMDXOptions) : RawServiceMDXOptions :=
  { industry := { code := some o.industry.code
                  title := some o.industry.title
                  description := o.industry.description
                  sector := o.industry.sector }
    classification := o.classification
    wikidata := o.wikidata
    digital := o.digital
    examples := o.examples }

/-- C4 (amended): `generate` performs no validation and never signals an
`InvalidRecord` error: a record missing `title` fails with a TypeError from
a string-method call (so no partial document is returned, but the error is
not an `InvalidRecord` signal); a record missing `code` renders a complete
document with no error at all; and every well-formed record renders without
error. -/
theorem C4_no_validation (options : RawServiceMDXOptions) :
    (options.industry.title = none → rawGenerate options = .error ()) ∧
    (∀ t, options.industry.title = some t →
      rawGenerate options =
        .ok (generateFrom t options.industry.description
          options.industry.sector.code options.classification options.wikidata
          (options.digital.getD (mkRat 7 10)) (options.examples.getD true))) ∧
    (∀ o : ServiceMDXOptions, rawGenerate (rawOfOptions o) = .ok (generate o)) := by
  refine ⟨?_, ?_, ?_⟩
  · intro h
    simp [rawGenerate, h]
  · intro t h
    simp [rawGenerate, h]
  · intro o
    rfl

def rawNoCode : RawServiceMDXOptions :=
  { industry := { code := none
                  title := some ("T".toList)
                  description := none
                  sector := sector54 }
    classification := wClass
    wikidata := none
    digital := none
    examples := none }

def rawNoTitle : RawServiceMDXOptions :=
  { industry := { code := some ("541511".toList)
                  title := none
                  description := none
                  sector := sector54 }
    classification := wClass
    wikidata := none
    digital := none
    examples := none }

/-- C4 witness. -/
theorem C4_no_validation_witness :
    rawGenerate rawNoTitle = .error () ∧
    rawGenerate rawNoCode =
      .ok (generateFrom ("T".toList) none ("54".toList) wClass none
        (mkRat 7 10) true) ∧
    rawGenerate (rawOfOptions wOptsA) = .ok (generate wOptsA) :=
  ⟨(C4_no_validation rawNoTitle).1 rfl,
   (C4_no_validation rawNoCode).2.1 ("T".toList) rfl,
   (C4_no_validation rawNoCode).2.2 wOptsA⟩

/-- C4 counterexample: a record missing its required `code` field renders
successfully — `generate` raises nothing at all, rather than signalling the
`InvalidRecord` error the claim requires. -/
theorem C4_no_validation_counterexample :
    rawNoCode.industry.code = none ∧ (rawGenerate rawNoCode).isOk = true :=
  ⟨rfl, rfl⟩

/- ## C8: the examples section toggle -/

/-- C8: with `examples` resolved to false the examples slot of the document
is empty and — provided no other section happens to contain the heading,
which concrete inputs discharge by computation — the rendered document
contains no "## Examples" heading at all; with `examples` resolved to true
the rendered document always contains the "## Examples" heading. -/
theorem C8_examples_toggle (options : ServiceMDXOptions) :
    (options.examples.getD true = false →
      (generateSections options).get? 6 = some [] ∧
      ((∀ sec ∈ generateSections options,
          containsSub ("## Examples".toList) sec = false) →
        containsSub ("## Examples".toList) (generate options) = false)) ∧
    (options.examples.getD true = true →
      containsSub ("## Examples".toList) (generate options) = true) := by
  constructor
  · intro hex
    constructor
    · simp [generateSections, generateSectionsFrom, hex]
    · intro hall
      by_contra hcon
      rw [Bool.not_eq_false, containsSub_iff_occursIn] at hcon
      unfold generate at hcon
      have h1 := occursIn_of_jsTrim _ _ hcon
      obtain ⟨x, hx, hocc⟩ := occursIn_joinSep_elim _ (by decide) (by decide) _ h1
      have hfx := hall x hx
      have htrue := (containsSub_iff_occursIn _ _).mpr hocc
      rw [hfx] at htrue
      exact Bool.false_ne_true htrue
  · intro hex
    rw [containsSub_iff_occursIn]
    unfold generate
    apply occursIn_jsTrim
    · exact ⟨'#', "# Examples".toList, by decide, by decide⟩
    · exact ⟨'s', "elpmaxE ##".toList, by decide, by decide⟩
    · apply occursIn_joinSep_of_mem _ _ _
        (generateExamplesSection options.industry.title
          options.industry.description options.industry.sector.code)
      · simp [generateSections, generateSectionsFrom, hex]
      · unfold generateExamplesSection
        apply occursIn_append_of_left
        rw [← containsSub_iff_occursIn]
        decide

def wOptsNoEx : ServiceMDXOptions :=
  { industry := { code := "611110".toList
                  title := "Elementary and Secondary Schools".toList
                  description := some []
                  sector := sector61 }
    classification := { code := "611110".toList
                        title := "Elementary and Secondary Schools".toList
                        sector := "61".toList
                        sectorName := sector61.name
                        subsector := some ("611".toList)
                        industryGroup := some ("6111".toList)
                        industryGroupName :=
                          some ("Elementary and Secondary Schools".toList) }
    wikidata := none
    digital := none
    examples := some false }

def wOptsEx : ServiceMDXOptions := { wOptsNoEx with examples := none }

set_option maxRecDepth 1000000 in
/-- C8 witness. -/
theorem C8_examples_toggle_witness :
    containsSub ("## Examples".toList) (generate wOptsNoEx) = false ∧
    containsSub ("## Examples".toList) (generate wOptsEx) = true :=
  ⟨((C8_examples_toggle wOptsNoEx).1 (by decide)).2 (by decide),
   (C8_examples_toggle wOptsEx).2 (by decide)⟩

/- ## Sample generators: generate-samples-fumadocs.js and generate-flat.js -/

/-- JavaScript template interpolation of a possibly-undefined string:
`undefined` prints as "undefined". -/
def jsStr : Option Str → Str
  | none => "undefined".toList
  | some s => s

def jsShowRat : Option ℚ → Str
  | none => "undefined".toList
  | some q => ratToStr q

/-- JavaScript `d >= q` where `d` may be `undefined` (comparison with
`undefined` is false). -/
def digitalGE (d : Option ℚ) (q : ℚ) : Bool :=
  match d with
  | none => false
  | some x => decide (q ≤ x)

/-- `name.replace(/\s+/g, '-').replace(/[()]/g, '')`: the hyphenated file
base used by the fumadocs generator. -/
def hyphenName (nm : Str) : Str :=
  (collapseRuns jsWsB nm).filter (fun c => !(c == '(' || c == ')'))

/-- The `naics` sub-object of a sample service; each field interpolates as
"undefined" when absent. -/
structure FNaics where
  code : Option Str
  title : Option Str
  sector : Option Str
  sectorName : Option Str
  subsector : Option Str
  industryGroup : Option Str
  industryGroupName : Option Str
deriving DecidableEq

/-- A sample service record of generate-samples-fumadocs.js as JavaScript
sees it: every property may be absent. -/
structure FumaService where
  name : Option Str
  description : Option Str
  category : Option Str
  subcategory : Option Str
  naics : Option FNaics
  unspsc : Option Str
  wikidata : Option Str
  wikipedia : Option Str
  digital : Option ℚ
  serviceType : Option Str
deriving DecidableEq

/-- The fumadocs `generateServiceMDX` template body, for a service whose
`name` (`nm`) and `naics` (`na`) are present (otherwise the function throws
before/while building the template; see `generateServiceMDXF`). -/
def fumaServiceMDX (nm : Str) (s : FumaService) (na : FNaics) : Str :=
  "---\ntitle: ".toList ++ nm ++
  "\ndescription: ".toList ++ jsStr s.description ++
  "\n---\n\nimport \x7b Tabs, Tab \x7d from 'fumadocs-ui/components/tabs'\nimport \x7b Callout \x7d from 'fumadocs-ui/components/callout'\n\n# ".toList ++ nm ++
  "\n\n".toList ++ jsStr s.description ++
  "\n\n## Classification\n\n<Tabs items=\x7b['NAICS', 'UNSPSC', 'Wikidata']\x7d>\n  <Tab value=\"NAICS\">\n    - **Code**: ".toList ++ jsStr na.code ++
  "\n    - **Title**: ".toList ++ jsStr na.title ++
  "\n    - **Sector**: ".toList ++ jsStr na.sector ++ " - ".toList ++ jsStr na.sectorName ++
  "\n    - **Subsector**: ".toList ++ jsStr na.subsector ++
  "\n    - **Industry Group**: ".toList ++ jsStr na.industryGroup ++ " - ".toList ++ jsStr na.industryGroupName ++
  "\n  </Tab>\n  <Tab value=\"UNSPSC\">\n    **Code**: ".toList ++ jsStr s.unspsc ++
  "\n  </Tab>\n  <Tab value=\"Wikidata\">\n    - **QID**: [".toList ++ jsStr s.wikidata ++
  "](https://www.wikidata.org/wiki/".toList ++ jsStr s.wikidata ++
  ")\n    - **Wikipedia**: [".toList ++ nm ++ "](".toList ++ jsStr s.wikipedia ++
  ")\n  </Tab>\n</Tabs>\n\n## Properties\n\n| Property | Type | Description | Required |\n|----------|------|-------------|----------|\n| name | string | Service name | Yes |\n| description | string | Service description | No |\n| provider | string \\| Organization \\| Person | Service provider | No |\n| serviceType | string | Type of service | No |\n| areaServed | string \\| Place | Geographic area | No |\n| category | string | Service category | No |\n| hoursAvailable | OpeningHoursSpecification | Service hours | No |\n| offers | Offer | Service pricing | No |\n| availableChannel | ServiceChannel | Access channels | No |\n\n## Usage\n\n<Tabs items=\x7b['TypeScript', 'JavaScript', 'JSON-LD']\x7d>\n  <Tab value=\"TypeScript\">\n    ```typescript\n    import \x7b $ \x7d from 'services.org.ai'\n\n    // Create a basic service\n    const ".toList ++ sampleCamelName nm ++
  " = $.".toList ++ samplePascalName nm ++
  ".create(\x7b\n      name: 'Example ".toList ++ nm ++
  "',\n      description: '".toList ++ jsStr s.description ++
  "',\n      provider: 'Example Company',\n      serviceType: '".toList ++ jsStr s.serviceType ++
  "',\n      areaServed: 'United States'\n    \x7d)\n\n    // With additional properties\n    const detailed".toList ++ samplePascalName nm ++
  " = $.".toList ++ samplePascalName nm ++
  ".create(\x7b\n      name: 'Premium ".toList ++ nm ++
  "',\n      description: 'Premium service with enhanced features',\n      provider: \x7b\n        name: 'Premium Service Provider',\n        type: 'Organization'\n      \x7d,\n      serviceType: '".toList ++ jsStr s.serviceType ++
  "',\n      areaServed: \x7b\n        name: 'San Francisco Bay Area',\n        type: 'Place'\n      \x7d,\n      hoursAvailable: \x7b\n        dayOfWeek: ['Monday', 'Tuesday', 'Wednesday', 'Thursday', 'Friday'],\n        opens: '09:00',\n        closes: '17:00'\n      \x7d\n    \x7d)\n\n    // Query services\n    const allServices = $.".toList ++ samplePascalName nm ++
  ".find()\n    ```\n  </Tab>\n  <Tab value=\"JavaScript\">\n    ```javascript\n    const \x7b $ \x7d = require('services.org.ai')\n\n    const ".toList ++ sampleCamelName nm ++
  " = $.".toList ++ samplePascalName nm ++
  ".create(\x7b\n      name: 'Example ".toList ++ nm ++
  "',\n      provider: 'Example Company'\n    \x7d)\n    ```\n  </Tab>\n  <Tab value=\"JSON-LD\">\n    ```json\n    \x7b\n      \"@context\": \"https://schema.org\",\n      \"@type\": \"Service\",\n      \"name\": \"Example ".toList ++ nm ++
  "\",\n      \"description\": \"".toList ++ jsStr s.description ++
  "\",\n      \"provider\": \x7b\n        \"@type\": \"Organization\",\n        \"name\": \"Example Company\"\n      \x7d,\n      \"serviceType\": \"".toList ++ jsStr s.serviceType ++
  "\"\n    \x7d\n    ```\n  </Tab>\n</Tabs>\n\n## Digital Score\n\n<Callout type=\"info\">\n  **Digital Score**: ".toList ++ jsShowRat s.digital ++
  " / 1.0\n\n  This service has a ".toList ++
  (if digitalGE s.digital (mkRat 7 10) then "high".toList
   else if digitalGE s.digital (mkRat 4 10) then "medium".toList
   else "low".toList) ++
  " digital delivery score, indicating ".toList ++
  (if digitalGE s.digital (mkRat 7 10) then "primarily digital/remote delivery".toList
   else if digitalGE s.digital (mkRat 4 10) then "hybrid delivery with digital components".toList
   else "primarily in-person service delivery".toList) ++
  ".\n</Callout>\n\n## Resources\n\n- [Schema.org Service](https://schema.org/Service)\n- [NAICS ".toList ++ jsStr na.code ++
  "](https://www.census.gov/naics/?input=".toList ++ jsStr na.code ++
  ")\n- [Wikidata: ".toList ++ nm ++ " (".toList ++ jsStr s.wikidata ++
  ")](https://www.wikidata.org/wiki/".toList ++ jsStr s.wikidata ++
  ")\n- [Wikipedia: ".toList ++ nm ++ "](".toList ++ jsStr s.wikipedia ++
  ")\n- [UNSPSC Code ".toList ++ jsStr s.unspsc ++
  "](https://www.ungm.org/public/unspsc)\n".toList

/-- The fumadocs `generateServiceMDX`: `kebabName` is computed first via
`service.name.toLowerCase()` (TypeError when `name` is absent); the template
then reads `service.naics.code` (TypeError when `naics` is absent); every
other absent property interpolates as "undefined". -/
def generateServiceMDXF (s : FumaService) : Except Unit Str :=
  match s.name with
  | none => .error ()
  | some nm =>
    match s.naics with
    | none => .error ()
    | some na => .ok (fumaServiceMDX nm s na)

/-- The relative output path of a leaf document:
`(${category})/(${subcategory})/${filename}.mdx`. -/
def fumaLeafPath (s : FumaService) (nm : Str) : Str :=
  "(".toList ++ jsStr s.category ++ ")/(".toList ++ jsStr s.subcategory ++
    ")/".toList ++ hyphenName nm ++ ".mdx".toList

/-- The per-service file writes of `generateSamples` (the second loop): each
record is rendered and written inside a try/catch, so a record whose
rendering throws is skipped and the batch continues. -/
def fumaLeafWrites (records : List FumaService) : List (Str × Str) :=
  records.filterMap (fun s =>
    match generateServiceMDXF s, s.name with
    | .ok content, some nm => some (fumaLeafPath s nm, content)
    | _, _ => none)

/-- Order-preserving insertion into the per-category subcategory map. -/
def upsertSub (subKey : Option Str) (s : FumaService) :
    List (Option Str × List FumaService) → List (Option Str × List FumaService)
  | [] => [(subKey, [s])]
  | (k, v) :: rest =>
    if k = subKey then (k, v ++ [s]) :: rest
    else (k, v) :: upsertSub subKey s rest

/-- Order-preserving insertion into the category map (the first loop of
`generateSamples`); JavaScript `Map` accepts `undefined` as a key, so the
key type is `Option Str`. -/
def upsertCat (s : FumaService) :
    List (Option Str × List (Option Str × List FumaService)) →
    List (Option Str × List (Option Str × List FumaService))
  | [] => [(s.category, upsertSub s.subcategory s [])]
  | (k, v) :: rest =>
    if k = s.category then (k, upsertSub s.subcategory s v) :: rest
    else (k, v) :: upsertCat s rest

/-- The grouping loop of `generateSamples`: nested first-seen-order maps
category → subcategory → services.  It reads only `service.category` and
`service.subcategory` and can never throw. -/
def fumaGroup (records : List FumaService) :
    List (Option Str × List (Option Str × List FumaService)) :=
  records.foldl (fun m s => upsertCat s m) []

/-- Global regex replace of each dash by a space (the display-name step of
the index generators). -/
def dashToSpace (cn : Str) : Str := cn.map (fun c => if c = '-' then ' ' else c)

/-- One member line of a category index:
`- [${s.name}](./${s.subcategory}/${s.name.replace(...)})`; building it
throws when the member has no `name`. -/
def fumaCatLink (s : FumaService) : Except Unit Str :=
  match s.name with
  | none => .error ()
  | some nm =>
    .ok ("- [".toList ++ nm ++ "](./".toList ++ jsStr s.subcategory ++
      "/".toList ++ hyphenName nm ++ ")".toList)

/-- One member line of a subcategory index:
`- [${s.name}](./${s.name.replace(...)})`. -/
def fumaSubLink (s : FumaService) : Except Unit Str :=
  match s.name with
  | none => .error ()
  | some nm =>
    .ok ("- [".toList ++ nm ++ "](./".toList ++ hyphenName nm ++ ")".toList)

/-- `generateCategoryIndex`: throws when the category key is `undefined`
(`categoryName.replace`), when a member has no `name`, when the group is
empty (`services[0]` is `undefined`) or when the head member has no `naics`
(`services[0].naics.sectorName`). -/
def generateCategoryIndexF (categoryName : Option Str)
    (services : List FumaService) : Except Unit Str :=
  match categoryName with
  | none => .error ()
  | some cn => do
    let displayName := dashToSpace cn
    let links ← services.mapM fumaCatLink
    match services with
    | [] => .error ()
    | s0 :: _ =>
      match s0.naics with
      | none => .error ()
      | some na0 =>
        pure ("---\ntitle: ".toList ++ displayName ++
          "\ndescription: Service types in the ".toList ++ displayName ++
          " category\n---\n\n# ".toList ++ displayName ++
          "\n\nBrowse service types in this category:\n\n".toList ++
          joinSep ("\n".toList) links ++
          "\n\n## Overview\n\nThis category includes services classified under NAICS sector: **".toList ++
          jsStr na0.sectorName ++
          "**\n\nTotal service types: ".toList ++ natToStr services.length ++
          "\n".toList)

/-- `generateSubcategoryIndex`: throws when the category or subcategory key
is `undefined`, when a member has no `name`, when the group is empty or when
the head member has no `naics`. -/
def generateSubcategoryIndexF (categoryName subcategoryName : Option Str)
    (services : List FumaService) : Except Unit Str :=
  match categoryName with
  | none => .error ()
  | some cn =>
    match subcategoryName with
    | none => .error ()
    | some sn => do
      let categoryDisplay := dashToSpace cn
      let subcategoryDisplay := dashToSpace sn
      let links ← services.mapM fumaSubLink
      match services with
      | [] => .error ()
      | s0 :: _ =>
        match s0.naics with
        | none => .error ()
        | some na0 =>
          pure ("---\ntitle: ".toList ++ subcategoryDisplay ++
            "\ndescription: Service types in ".toList ++ subcategoryDisplay ++
            "\n---\n\n# ".toList ++ subcategoryDisplay ++
            "\n\nService types in this subcategory:\n\n".toList ++
            joinSep ("\n".toList) links ++
            "\n\n## Classification\n\n- **Category**: ".toList ++ categoryDisplay ++
            "\n- **Subcategory**: ".toList ++ subcategoryDisplay ++
            "\n- **NAICS Industry Group**: ".toList ++ jsStr na0.industryGroupName ++
            "\n".toList)

/-- The index writes of one category entry of the third loop of
`generateSamples` (this loop has no try/catch: any throw aborts the batch). -/
def catIndexEntry (cat : Option Str)
    (subMap : List (Option Str × List FumaService)) :
    Except Unit (List (Str × Str)) := do
  let allServices := (subMap.map (fun p => p.2)).flatten
  let c ← generateCategoryIndexF cat allServices
  let subs ← subMap.mapM (fun p => do
    let sc ← generateSubcategoryIndexF cat p.1 p.2
    pure ("(".toList ++ jsStr cat ++ ")/(".toList ++ jsStr p.1 ++
      ")/index.mdx".toList, sc))
  pure (("(".toList ++ jsStr cat ++ ")/index.mdx".toList, c) :: subs)

/-- All index writes of `generateSamples`. -/
def fumaIndexWrites (records : List FumaService) :
    Except Unit (List (Str × Str)) := do
  let ls ← (fumaGroup records).mapM (fun g => catIndexEntry g.1 g.2)
  pure ls.flatten

/- The flat-variant generator generate-flat.js. -/

structure FlatCat where
  name : Option Str
  display : Option Str
deriving DecidableEq

structure FlatService where
  name : Option Str
  titleCase : Option Str
  description : Option Str
  category : Option FlatCat
  subcategory : Option FlatCat
deriving DecidableEq

def upsertFlatCat (key : Option Str) (display : Option Str) (s : FlatService) :
    List (Option Str × Option Str × List FlatService) →
    List (Option Str × Option Str × List FlatService)
  | [] => [(key, display, [s])]
  | (k, d, v) :: rest =>
    if k = key then (k, d, v ++ [s]) :: rest
    else (k, d, v) :: upsertFlatCat key display s rest

def upsertFlatSub (key : Str) (cat sub : FlatCat) (s : FlatService) :
    List (Str × FlatCat × FlatCat × List FlatService) →
    List (Str × FlatCat × FlatCat × List FlatService)
  | [] => [(key, cat, sub, [s])]
  | (k, c, b, v) :: rest =>
    if k = key then (k, c, b, v ++ [s]) :: rest
    else (k, c, b, v) :: upsertFlatSub key cat sub s rest

/-- The grouping loop of `generateServices` in generate-flat.js (lines
356–379).  It dereferences `service.category.name` and
`service.subcategory.name` with no guard and outside any try/catch, so a
record whose `category` or `subcategory` is absent throws a TypeError that
aborts the whole batch (modelled `Except.error`). -/
def flatGroupStep
    (maps : (List (Option Str × Option Str × List FlatService)) ×
      (List (Str × FlatCat × FlatCat × List FlatService)))
    (s : FlatService) :
    Except Unit ((List (Option Str × Option Str × List FlatService)) ×
      (List (Str × FlatCat × FlatCat × List FlatService))) :=
  match s.category, s.subcategory with
  | some cat, some sub =>
    pure (upsertFlatCat cat.name cat.display s maps.1,
      upsertFlatSub (jsStr cat.name ++ ":".toList ++ jsStr sub.name) cat sub s
        maps.2)
  | _, _ => .error ()

def flatGroup (records : List FlatService) :
    Except Unit ((List (Option Str × Option Str × List FlatService)) ×
      (List (Str × FlatCat × FlatCat × List FlatService))) :=
  records.foldlM flatGroupStep ([], [])

theorem flatGroupStep_error (maps :
    (List (Option Str × Option Str × List FlatService)) ×
    (List (Str × FlatCat × FlatCat × List FlatService)))
    (s : FlatService) (hcat : s.category = none) :
    flatGroupStep maps s = .error () := by
  cases hsub : s.subcategory <;> simp [flatGroupStep, hcat, hsub]

theorem flatGroup_error_aux (s : FlatService) (hcat : s.category = none) :
    ∀ (records : List FlatService), s ∈ records →
    ∀ init, records.foldlM flatGroupStep init = .error () := by
  intro records
  induction records with
  | nil => intro hs; simp at hs
  | cons a t ih =>
    intro hs init
    rw [List.foldlM_cons]
    rcases List.mem_cons.mp hs with rfl | hs'
    · rw [flatGroupStep_error init s hcat]
      rfl
    · cases hstep : flatGroupStep init a with
      | error e => rfl
      | ok b => exact ih hs' b

/-- C5 (amended): in the fumadocs generator, the number of leaf documents
always equals the number of input records whose required `name` and `naics`
fields are present — a record whose rendering throws is skipped by the
per-record try/catch while the rest of the batch still yields one leaf
each; a record missing its category metadata is grouped under the
stringified `undefined` key — its leaf lands in the "(undefined)"
directory — not under an "Uncategorized" group; and in the flat-variant
generator a record missing category metadata makes the grouping loop throw
a TypeError that aborts the batch. -/
theorem C5_leaf_count_and_missing_category :
    (∀ records : List FumaService,
      (fumaLeafWrites records).length =
        (records.filter (fun s => s.name.isSome && s.naics.isSome)).length) ∧
    (∀ (s : FumaService) (nm : Str), s.category = none → s.name = some nm →
      fumaLeafPath s nm =
        "(undefined)/(".toList ++ jsStr s.subcategory ++ ")/".toList ++
          hyphenName nm ++ ".mdx".toList) ∧
    (∀ (records : List FlatService) (s : FlatService),
      s ∈ records → s.category = none → flatGroup records = .error ()) := by
  refine ⟨?_, ?_, ?_⟩
  · intro records
    induction records with
    | nil => rfl
    | cons a t ih =>
      cases hnm : a.name with
      | none =>
        simp only [fumaLeafWrites, List.filterMap_cons, generateServiceMDXF, hnm,
          List.filter_cons, Option.isSome_none, Bool.false_and, Bool.false_eq_true,
          if_false]
        simpa [fumaLeafWrites] using ih
      | some nm =>
        cases hna : a.naics with
        | none =>
          simp only [fumaLeafWrites, List.filterMap_cons, generateServiceMDXF, hnm,
            hna, List.filter_cons, Option.isSome_none, Option.isSome_some,
            Bool.true_and, Bool.false_eq_true, if_false]
          simpa [fumaLeafWrites] using ih
        | some na =>
          simp only [fumaLeafWrites, List.filterMap_cons, generateServiceMDXF, hnm,
            hna, List.filter_cons, Option.isSome_some, Bool.true_and, if_true,
            List.length_cons]
          simpa [fumaLeafWrites] using ih
  · intro s nm hcat hnm
    simp [fumaLeafPath, hcat, jsStr]
  · intro records s hs hcat
    exact flatGroup_error_aux s hcat records hs ([], [])

def fnW : FNaics :=
  { code := some ("541511".toList)
    title := some ("Custom Computer Programming Services".toList)
    sector := some ("54".toList)
    sectorName := some ("Professional, Scientific, and Technical Services".toList)
    subsector := some ("541".toList)
    industryGroup := some ("5415".toList)
    industryGroupName := some ("Computer Systems Design and Related Services".toList) }

def wFumaA : FumaService :=
  { name := some ("Svc A".toList)
    description := some ("First sample".toList)
    category := some ("Professional-Services".toList)
    subcategory := some ("Computer-Services".toList)
    naics := some fnW
    unspsc := none
    wikidata := none
    wikipedia := none
    digital := none
    serviceType := some ("Professional Service".toList) }

def wFumaB : FumaService := { wFumaA with name := some ("Svc B".toList) }

/-- A record whose required `name` is absent: its rendering throws and the
per-record try/catch skips it. -/
def noNameFuma : FumaService := { wFumaA with name := none }

/-- A record with no category/subcategory metadata. -/
def uFuma : FumaService :=
  { wFumaA with
    name := some ("Widget Repair".toList)
    category := none
    subcategory := none }

def wFlatOk : FlatService :=
  { name := some ("A".toList)
    titleCase := some ("A".toList)
    description := none
    category := some { name := some ("C".toList), display := some ("C".toList) }
    subcategory := some { name := some ("S".toList), display := some ("S".toList) } }

def uFlat : FlatService := { wFlatOk with category := none }

/-- C5 witness: a mixed batch — one record with `name` absent between two
well-formed ones — yields exactly the two leaves of the well-formed records,
the throwing record being skipped. -/
theorem C5_leaf_count_witness :
    (fumaLeafWrites [wFumaA, noNameFuma, wFumaB]).length =
      (([wFumaA, noNameFuma, wFumaB] : List FumaService).filter
        (fun s => s.name.isSome && s.naics.isSome)).length ∧
    (([wFumaA, noNameFuma, wFumaB] : List FumaService).filter
        (fun s => s.name.isSome && s.naics.isSome)).length = 2 ∧
    fumaLeafPath uFuma ("Widget Repair".toList) =
      "(undefined)/(".toList ++ jsStr uFuma.subcategory ++ ")/".toList ++
        hyphenName ("Widget Repair".toList) ++ ".mdx".toList ∧
    flatGroup [wFlatOk, uFlat] = .error () :=
  ⟨C5_leaf_count_and_missing_category.1 [wFumaA, noNameFuma, wFumaB],
   by decide,
   C5_leaf_count_and_missing_category.2.1 uFuma ("Widget Repair".toList) rfl rfl,
   C5_leaf_count_and_missing_category.2.2 [wFlatOk, uFlat] uFlat (by decide) rfl⟩

/-- C5 counterexample: a one-record batch whose record lacks `name`
produces zero leaf documents, refuting "count of leaf documents equals
count of input records" as stated; and a record missing category metadata
is grouped under the JavaScript string "undefined" — its leaf path is
"(undefined)/(undefined)/Widget-Repair.mdx" — not under an "Uncategorized"
group, which exists nowhere in the code. -/
theorem C5_uncategorized_counterexample :
    (([noNameFuma] : List FumaService).length = 1 ∧
      (fumaLeafWrites [noNameFuma]).length = 0) ∧
    uFuma.category = none ∧
    jsStr uFuma.category = "undefined".toList ∧
    jsStr uFuma.category ≠ "Uncategorized".toList ∧
    fumaLeafPath uFuma ("Widget Repair".toList) =
      "(undefined)/(undefined)/Widget-Repair.mdx".toList :=
  ⟨⟨rfl, rfl⟩, rfl, rfl, by decide, by decide⟩
